import Mathlib

/-!
Shallow embedding of `src/metrics/metrics.ts` from rocicorp/datadog-util.

JS `number` values stored in gauges are modelled as `Int` (the claims only
involve integral values and no arithmetic is performed on them); wall-clock
time `Date.now()` is modelled as a `Nat` of milliseconds passed explicitly
to every function that reads the clock.  Mutation of objects is modelled by
explicit state passing: a method that mutates its receiver returns the
updated receiver.
-/

namespace DatadogUtil

/-- Embeds `type DatadogPoint = [number, number[]]`: a second-resolution
timestamp and the values recorded for that second. -/
structure DatadogPoint where
  ts : Nat
  values : List Int
  deriving DecidableEq, Repr

/-- Embeds `type DatadogSeries = {metric: string; points: DatadogPoint[]; tags?: string[]}`. -/
structure DatadogSeries where
  metric : String
  points : List DatadogPoint
  tags : Option (List String)
  deriving DecidableEq, Repr

/-- Embeds `function newDatadagPoint(ts, value) { return [ts, [value]]; }`. -/
def newDatadagPoint (ts : Nat) (value : Int) : DatadogPoint :=
  ⟨ts, [value]⟩

/-- Embeds `function t() { return Math.round(Date.now() / 1000); }`.
`nowMs` stands for `Date.now()`.  JavaScript `Math.round` rounds half-up,
so for natural `nowMs` the result is `⌊(nowMs + 500) / 1000⌋`. -/
def t (nowMs : Nat) : Nat :=
  (nowMs + 500) / 1000

/-- Embeds `class Gauge`: `_name` is fixed at construction, `_value` starts
`undefined`. -/
structure Gauge where
  name : String
  value : Option Int
  deriving DecidableEq, Repr

/-- Embeds `new Gauge(name)`. -/
def Gauge.new (name : String) : Gauge :=
  ⟨name, none⟩

/-- Embeds `Gauge.set(value) { this._value = value; }`. -/
def Gauge.set (g : Gauge) (value : Int) : Gauge :=
  { g with value := some value }

/-- Embeds `Gauge.flush()`: the points list is `[]` when `_value` is
`undefined` and `[newDatadagPoint(t(), value)]` otherwise; the gauge itself
is not modified (the returned second component is the unchanged receiver,
mirroring that the method body never writes `_value`). -/
def Gauge.flush (g : Gauge) (nowMs : Nat) : DatadogSeries × Gauge :=
  let points := match g.value with
    | none => []
    | some v => [newDatadagPoint (t nowMs) v]
  (⟨g.name, points, none⟩, g)

/-- Embeds `class State`: `_prefix` (here `pfx`) and `_clearOnFlush` are
fixed at construction, `_current` starts `undefined`. -/
structure State where
  pfx : String
  clearOnFlush : Bool
  current : Option String
  deriving DecidableEq, Repr

/-- Embeds `new State(prefix, clearOnFlush = false)`. -/
def State.new (pfx : String) (clearOnFlush : Bool) : State :=
  ⟨pfx, clearOnFlush, none⟩

/-- Embeds `State.set(state) { this._current = state; }`. -/
def State.set (s : State) (st : String) : State :=
  { s with current := some st }

/-- Embeds `State.clear() { this._current = undefined; }`. -/
def State.clear (s : State) : State :=
  { s with current := none }

/-- Embeds `State.flush()`: returns `undefined` when `_current` is unset;
otherwise builds `new Gauge([prefix, current].join('_'))`, sets it to `1`,
flushes it, and clears `_current` afterwards when `_clearOnFlush` holds. -/
def State.flush (s : State) (nowMs : Nat) : Option DatadogSeries × State :=
  match s.current with
  | none => (none, s)
  | some cur =>
    let gauge := (Gauge.new (String.intercalate "_" [s.pfx, cur])).set 1
    let series := (gauge.flush nowMs).1
    if s.clearOnFlush then (some series, s.clear) else (some series, s)

/-- Embeds `class Metrics`: `_gauges` and `_states` are insertion-ordered
maps from name to instance (a JavaScript `Map` iterates in insertion
order, modelled as an association list appended on first insertion), and
`_tags` is fixed at construction. -/
structure Metrics where
  gauges : List (String × Gauge)
  states : List (String × State)
  tags : List String
  deriving DecidableEq, Repr

/-- Embeds `new Metrics(tags = [])`. -/
def Metrics.new (tags : List String) : Metrics :=
  ⟨[], [], tags⟩

/-- Insertion-ordered map lookup, as used by `Map.get`. -/
def lookupName {α : Type} (k : String) : List (String × α) → Option α
  | [] => none
  | p :: ps => if p.1 = k then some p.2 else lookupName k ps

/-- Embeds `Metrics.gauge(name)`: get-or-create in the gauge namespace;
returns the (possibly fresh) gauge together with the updated registry. -/
def Metrics.gauge (m : Metrics) (name : String) : Gauge × Metrics :=
  match lookupName name m.gauges with
  | some g => (g, m)
  | none =>
    let g := Gauge.new name
    (g, { m with gauges := m.gauges ++ [(name, g)] })

/-- Embeds `Metrics.state(name, clearOnFlush = false)`: get-or-create in
the state namespace. -/
def Metrics.state (m : Metrics) (name : String) (clearOnFlush : Bool) : State × Metrics :=
  match lookupName name m.states with
  | some s => (s, m)
  | none =>
    let s := State.new name clearOnFlush
    (s, { m with states := m.states ++ [(name, s)] })

/-- Embeds `if (this._tags.length > 0) { series.tags = this._tags; }`
(contents view: the reference-aliasing refinement is `SeriesRef` below). -/
def tagSeries (tags : List String) (series : DatadogSeries) : DatadogSeries :=
  if tags.length > 0 then { series with tags := some tags } else series

/-- Loop `for (const gauge of this._gauges.values())` of `Metrics.flush`:
every gauge's flush result is tagged (when the registry's tags are
non-empty) and pushed onto the accumulator, unconditionally. -/
def flushGauges (tags : List String) (nowMs : Nat) :
    List (String × Gauge) → List DatadogSeries → List DatadogSeries
  | [], acc => acc
  | p :: ps, acc =>
    flushGauges tags nowMs ps (acc ++ [tagSeries tags (p.2.flush nowMs).1])

/-- Loop `for (const state of this._states.values())` of `Metrics.flush`:
a state's flush result is pushed only when it is defined (tagged when the
registry's tags are non-empty); the possibly self-cleared states are
collected alongside. -/
def flushStates (tags : List String) (nowMs : Nat) :
    List (String × State) → List DatadogSeries → List (String × State) →
    List DatadogSeries × List (String × State)
  | [], acc, accSt => (acc, accSt)
  | p :: ps, acc, accSt =>
    let r := p.2.flush nowMs
    let acc' := match r.1 with
      | none => acc
      | some series => acc ++ [tagSeries tags series]
    flushStates tags nowMs ps acc' (accSt ++ [(p.1, r.2)])

/-- Embeds `Metrics.flush()`: iterate `_gauges.values()` pushing every
gauge's flush result (tagged when `_tags` is non-empty), then iterate
`_states.values()` pushing only defined state results (tagged likewise);
states may self-mutate during their flush, so the updated registry is
returned as well. -/
def Metrics.flush (m : Metrics) (nowMs : Nat) : List DatadogSeries × Metrics :=
  let afterGauges := flushGauges m.tags nowMs m.gauges []
  let stepped := flushStates m.tags nowMs m.states afterGauges []
  (stepped.1, { m with states := stepped.2 })

/-! ## Wire submission (`report`) and the Reporter -/

/-- Hexadecimal digit, for JSON control-character escapes. -/
def hexDigit (n : Nat) : Char :=
  if n < 10 then Char.ofNat (48 + n) else Char.ofNat (87 + n)

/-- JSON string escaping as performed by `JSON.stringify`: quote, backslash,
and the control characters below 0x20. -/
def jsonEscapeChar (c : Char) : String :=
  if c = '"' then "\\\""
  else if c = '\\' then "\\\\"
  else if c = '\x08' then "\\b"
  else if c = '\x09' then "\\t"
  else if c = '\x0a' then "\\n"
  else if c = '\x0c' then "\\f"
  else if c = '\x0d' then "\\r"
  else if c.toNat < 32 then
    "\\u00" ++ String.mk [hexDigit (c.toNat / 16), hexDigit (c.toNat % 16)]
  else String.singleton c

/-- JSON rendering of a string literal. -/
def jsonString (s : String) : String :=
  "\"" ++ String.join (s.data.map jsonEscapeChar) ++ "\""

/-- JSON rendering of a `DatadogPoint` `[ts, [v, ...]]`. -/
def jsonPoint (p : DatadogPoint) : String :=
  "[" ++ toString p.ts ++ ",[" ++ String.intercalate "," (p.values.map toString) ++ "]]"

/-- JSON rendering of a `DatadogSeries` object: key order `metric`,
`points`, then `tags` (omitted when `undefined`), matching the insertion
order produced by `Gauge.flush` and `Metrics.flush`. -/
def jsonSeries (s : DatadogSeries) : String :=
  "\x7b\"metric\":" ++ jsonString s.metric
    ++ ",\"points\":[" ++ String.intercalate "," (s.points.map jsonPoint) ++ "]"
    ++ (match s.tags with
        | none => ""
        | some ts => ",\"tags\":[" ++ String.intercalate "," (ts.map jsonString) ++ "]")
    ++ "\x7d"

/-- Embeds `JSON.stringify({series: allSeries})`. -/
def stringifySeriesBody (allSeries : List DatadogSeries) : String :=
  "\x7b\"series\":[" ++ String.intercalate "," (allSeries.map jsonSeries) ++ "]\x7d"

/-- Headers are a JavaScript object: an insertion-ordered map from header
name to value. -/
abbrev Headers := List (String × String)

/-- Object-spread update: assigning to an existing key overwrites its value
in place, a new key is appended. -/
def setHeader (hs : Headers) (k v : String) : Headers :=
  if (lookupName k hs).isSome then
    hs.map fun p => if p.1 = k then (k, v) else p
  else hs ++ [(k, v)]

/-- Embeds `{'Content-Type': 'application/json', ...extraHeaders}`: the
base content-type binding first, then every extra header applied after. -/
def mkHeaders (extraHeaders : Headers) : Headers :=
  List.foldl (fun hs p => setHeader hs p.1 p.2)
    [("Content-Type", "application/json")] extraHeaders

/-- The observable part of a `fetch` `Response`: `ok`, `status`,
`statusText`, and the text of the body (`await res.text()`). -/
structure Response where
  ok : Bool
  status : Nat
  statusText : String
  bodyText : String
  deriving DecidableEq, Repr

/-- The request handed to `fetch`. -/
structure Request where
  url : String
  method : String
  headers : Headers
  body : String
  deriving DecidableEq

/-- A transport: `fetch` either yields a response or throws (`Except.error`
is the thrown error rendered as a string). -/
def Fetch := Request → Except String Response

/-- The request built by `report(url, extraHeaders, allSeries)`. -/
def reportRequest (url : String) (extraHeaders : Headers)
    (allSeries : List DatadogSeries) : Request :=
  { url := url, method := "POST", headers := mkHeaders extraHeaders,
    body := stringifySeriesBody allSeries }

/-- Embeds `export async function report(url, extraHeaders, allSeries)`:
POST the serialized series; when the response is not `ok`, read its body
text and throw an error embedding status, status text and body; otherwise
return the raw response. -/
def report (fetch : Fetch) (url : String) (extraHeaders : Headers)
    (allSeries : List DatadogSeries) : Except String Response :=
  match fetch (reportRequest url extraHeaders allSeries) with
  | Except.error e => Except.error e
  | Except.ok res =>
    if !res.ok then
      Except.error ("unexpected response: " ++ toString res.status ++ " "
        ++ res.statusText ++ " body: " ++ res.bodyText)
    else Except.ok res

/-- A JavaScript number as far as truthiness is concerned: `NaN` or an
integral value. -/
inductive JSNum where
  | nan : JSNum
  | num : Int → JSNum
  deriving DecidableEq, Repr

/-- JavaScript numeric truthiness: `0`, `-0` and `NaN` are falsy. -/
def JSNum.truthy : JSNum → Bool
  | JSNum.nan => false
  | JSNum.num n => n != 0

/-- Embeds `this._intervalMs = options.intervalMs || 2 * 60 * 1000` from the
`Reporter` constructor: `undefined` and every falsy number fall back to the
two-minute default. -/
def Reporter.intervalMsOf (intervalMs : Option JSNum) : JSNum :=
  match intervalMs with
  | none => JSNum.num (2 * 60 * 1000)
  | some v => if v.truthy then v else JSNum.num (2 * 60 * 1000)

/-- Log levels used by the Reporter through its optional logger. -/
inductive LogLevel where
  | debug : LogLevel
  | error : LogLevel
  deriving DecidableEq, Repr

/-- A leveled log message delivered to the optional logger (dropped
silently when no logger was supplied). -/
structure LogEntry where
  level : LogLevel
  msg : String
  deriving DecidableEq, Repr

/-- The mutable state of a `Reporter`: its registry, configured endpoint
and headers, and `_intervalID` (`0` when no interval is active). -/
structure ReporterState where
  metrics : Metrics
  url : String
  headers : Headers
  intervalID : Nat
  deriving DecidableEq

/-- Embeds `Reporter.report()`: flush the registry; when nothing was
flushed, log a debug message and stop; otherwise call `report` inside
`try`/`catch`, logging any failure at error level.  The `Except` result
type records that the body composes fallible calls; the `catch` makes the
method total. -/
def Reporter.reportOnce (fetch : Fetch) (r : ReporterState) (nowMs : Nat) :
    Except String (ReporterState × List LogEntry) :=
  let flushed := r.metrics.flush nowMs
  let r' := { r with metrics := flushed.2 }
  if flushed.1.length = 0 then
    Except.ok (r', [⟨LogLevel.debug, "No metrics to report"⟩])
  else
    match report fetch r.url r.headers flushed.1 with
    | Except.ok _ => Except.ok (r', [])
    | Except.error e =>
      Except.ok (r', [⟨LogLevel.error, "Error reporting metrics: " ++ e⟩])

/-- Runs the timer: one `Reporter.report()` invocation per tick time, in
order, propagating any uncaught exception (none can occur, which is what
keeps later ticks running). -/
def Reporter.runTicks (fetch : Fetch) (r : ReporterState) :
    List Nat → Except String (ReporterState × List LogEntry)
  | [] => Except.ok (r, [])
  | nowMs :: rest =>
    match Reporter.reportOnce fetch r nowMs with
    | Except.error e => Except.error e
    | Except.ok rl =>
      match Reporter.runTicks fetch rl.1 rest with
      | Except.error e => Except.error e
      | Except.ok rl' => Except.ok (rl'.1, rl.2 ++ rl'.2)

/-! ## Reference-semantics refinement of flush

In JavaScript, arrays are heap objects passed by reference.  `Gauge.flush`
builds its points array from a fresh literal (`[]` or
`[newDatadagPoint(...)]`), while `Metrics.flush` executes
`series.tags = this._tags`, storing the registry's own tags array on the
returned series.  To reason about aliasing, this refinement makes array
identity explicit: a `World` is a heap of arrays addressed by allocation
index, series carry references, and mutation is a heap write. -/

/-- Heap of array objects: point arrays and tag (string) arrays, addressed
by allocation index. -/
structure World where
  pointArrs : List (List DatadogPoint)
  tagArrs : List (List String)
  deriving DecidableEq

/-- Allocates a fresh points array (an array literal in the source). -/
def World.allocPoints (w : World) (pts : List DatadogPoint) : Nat × World :=
  (w.pointArrs.length, { w with pointArrs := w.pointArrs ++ [pts] })

/-- Reads a points array through its reference. -/
def World.readPoints (w : World) (r : Nat) : List DatadogPoint :=
  w.pointArrs.getD r []

/-- Overwrites a points array in place (a caller mutating the array it was
handed). -/
def World.writePoints (w : World) (r : Nat) (pts : List DatadogPoint) : World :=
  { w with pointArrs := w.pointArrs.set r pts }

/-- Reads a tags array through its reference. -/
def World.readTags (w : World) (r : Nat) : List String :=
  w.tagArrs.getD r []

/-- Overwrites a tags array in place. -/
def World.writeTags (w : World) (r : Nat) (ts : List String) : World :=
  { w with tagArrs := w.tagArrs.set r ts }

/-- A `DatadogSeries` with array identity visible: `points` and `tags` are
references into the `World`. -/
structure SeriesRef where
  metric : String
  points : Nat
  tags : Option Nat
  deriving DecidableEq, Repr

/-- Reference-level `Gauge.flush`: the points array is a fresh allocation
computed from `_value`, and `tags` starts out absent. -/
def Gauge.flushH (g : Gauge) (nowMs : Nat) (w : World) : SeriesRef × World :=
  let pts := match g.value with
    | none => []
    | some v => [newDatadagPoint (t nowMs) v]
  let a := w.allocPoints pts
  (⟨g.name, a.1, none⟩, a.2)

/-- Reference-level `State.flush`: flushes the synthetic gauge, allocating
a fresh points array. -/
def State.flushH (s : State) (nowMs : Nat) (w : World) :
    Option SeriesRef × State × World :=
  match s.current with
  | none => (none, s, w)
  | some cur =>
    let gauge := (Gauge.new (String.intercalate "_" [s.pfx, cur])).set 1
    let a := gauge.flushH nowMs w
    if s.clearOnFlush then (some a.1, s.clear, a.2) else (some a.1, s, a.2)

/-- Reference-level registry: the maps as before, plus a reference to the
registry's tags array (`readonly _tags: string[]` binds the reference, not
the contents). -/
structure MetricsH where
  gauges : List (String × Gauge)
  states : List (String × State)
  tagsRef : Nat
  deriving DecidableEq

/-- Gauge loop of the reference-level `Metrics.flush`:
`series.tags = this._tags` installs the registry's own array reference (no
copy is taken), guarded by `this._tags.length > 0` read through that same
reference in the current heap. -/
def flushGaugesH (tagsRef : Nat) (nowMs : Nat) :
    List (String × Gauge) → List SeriesRef → World → List SeriesRef × World
  | [], acc, w => (acc, w)
  | p :: ps, acc, w =>
    let a := p.2.flushH nowMs w
    let series := if (w.readTags tagsRef).length > 0 then
        { a.1 with tags := some tagsRef }
      else a.1
    flushGaugesH tagsRef nowMs ps (acc ++ [series]) a.2

/-- State loop of the reference-level `Metrics.flush`. -/
def flushStatesH (tagsRef : Nat) (nowMs : Nat) :
    List (String × State) → List SeriesRef → List (String × State) → World →
    List SeriesRef × List (String × State) × World
  | [], acc, accSt, w => (acc, accSt, w)
  | p :: ps, acc, accSt, w =>
    let a := p.2.flushH nowMs w
    let acc' := match a.1 with
      | none => acc
      | some series =>
        acc ++ [if (w.readTags tagsRef).length > 0 then
            { series with tags := some tagsRef }
          else series]
    flushStatesH tagsRef nowMs ps acc' (accSt ++ [(p.1, a.2.1)]) a.2.2

/-- Reference-level `Metrics.flush`: gauges then states, with
`series.tags = this._tags` sharing the registry's tags array. -/
def MetricsH.flush (m : MetricsH) (nowMs : Nat) (w : World) :
    List SeriesRef × MetricsH × World :=
  let g := flushGaugesH m.tagsRef nowMs m.gauges [] w
  let stepped := flushStatesH m.tagsRef nowMs m.states g.1 [] g.2
  (stepped.1, { m with states := stepped.2.1 }, stepped.2.2)

/-- Well-formedness of a registry's maps: every stored gauge carries the
name it is keyed under, and every stored state carries the prefix it is
keyed under.  This holds for every registry built through the accessors,
which always pass the key to the constructor. -/
def Metrics.WF (m : Metrics) : Prop :=
  (∀ p ∈ m.gauges, p.2.name = p.1) ∧ (∀ p ∈ m.states, p.2.pfx = p.1)

instance (m : Metrics) : Decidable m.WF := by
  unfold Metrics.WF; infer_instance

/-! ## Theorems -/

theorem intercalate_pair (sep a b : String) :
    String.intercalate sep [a, b] = a ++ sep ++ b := rfl

/-- Claim C4: a never-set gauge flushes to a series with its name and an
empty point list; a set gauge flushes to exactly one point
`(t nowMs, [lastSetValue])` stamped at flush time, and flushing leaves the
gauge (hence its stored value) unchanged, so repeated flushes keep
reporting the last-set value. -/
theorem gauge_flush_spec (g : Gauge) (nowMs : Nat) :
    (g.value = none → (g.flush nowMs).1 = ⟨g.name, [], none⟩) ∧
    (∀ v : Int, g.value = some v →
      (g.flush nowMs).1 = ⟨g.name, [⟨t nowMs, [v]⟩], none⟩) ∧
    (g.flush nowMs).2 = g := by
  refine ⟨fun h => ?_, fun v h => ?_, rfl⟩
  · simp [Gauge.flush, h]
  · simp [Gauge.flush, h, newDatadagPoint]

theorem gauge_flush_spec_witness :
    ((⟨"g", some 3⟩ : Gauge).flush 42000).1 = ⟨"g", [⟨t 42000, [3]⟩], none⟩ :=
  (gauge_flush_spec ⟨"g", some 3⟩ 42000).2.1 3 rfl

/-- Claim C6 counterexample: the claim says the point timestamp is
`⌊T / 1000⌋` for a flush at `T` milliseconds; but the source computes
`Math.round(Date.now() / 1000)`, so at `T = 42500` the emitted timestamp
is `43` while `⌊42500 / 1000⌋ = 42`. -/
theorem gauge_timestamp_floor_cex :
    (((Gauge.new "name").set 3).flush 42500).1 = ⟨"name", [⟨43, [3]⟩], none⟩ ∧
    (42500 : Nat) / 1000 = 42 ∧ (43 : Nat) ≠ 42 := by
  refine ⟨rfl, rfl, by decide⟩

/-- Claim C6 (amended): the point timestamp produced by flushing a set
gauge at virtual time `T` milliseconds is `Math.round(T / 1000)`, i.e.
rounding to the nearest second with halves rounding up: it equals
`⌊T / 1000⌋` when `T % 1000 < 500` and `⌊T / 1000⌋ + 1` otherwise; at
`T = 42000` this gives the claimed point `[[42, [3]]]`. -/
theorem gauge_timestamp_round_spec (g : Gauge) (v : Int) (T : Nat) :
    ((g.set v).flush T).1.points = [⟨t T, [v]⟩] ∧
    t T = (T + 500) / 1000 ∧
    (T % 1000 < 500 → t T = T / 1000) ∧
    (500 ≤ T % 1000 → t T = T / 1000 + 1) ∧
    t 42000 = 42 := by
  refine ⟨by simp [Gauge.set, Gauge.flush, newDatadagPoint], rfl, fun h => ?_, fun h => ?_, rfl⟩
  · unfold t; omega
  · unfold t; omega

theorem gauge_timestamp_round_spec_witness :
    t 42500 = 42500 / 1000 + 1 :=
  (gauge_timestamp_round_spec (Gauge.new "g") 3 42500).2.2.2.1 (by decide)

/-- Claim C5: an unset state flushes to the explicit `none` marker leaving
the state unchanged; a state set to `lab` flushes to the flush result of a
synthetic gauge named `pfx ++ "_" ++ lab` set to `1`, namely
`{metric := pfx_lab, points := [[t nowMs, [1]]]}`, clearing the label
afterwards exactly when `clearOnFlush` holds; with `clearOnFlush` true, a
second immediate flush yields the `none` marker again. -/
theorem state_flush_spec (s : State) (nowMs : Nat) :
    (s.current = none → s.flush nowMs = (none, s)) ∧
    (∀ lab : String, s.current = some lab →
      (s.flush nowMs).1 = some ⟨s.pfx ++ "_" ++ lab, [⟨t nowMs, [1]⟩], none⟩ ∧
      (s.flush nowMs).2 = (if s.clearOnFlush then s.clear else s)) ∧
    (s.clearOnFlush = true → ∀ nowMs' : Nat, (((s.flush nowMs).2).flush nowMs').1 = none) := by
  refine ⟨fun h => ?_, fun lab h => ⟨?_, ?_⟩, fun hc nowMs' => ?_⟩
  · simp [State.flush, h]
  · simp [State.flush, h, Gauge.new, Gauge.set, Gauge.flush, newDatadagPoint,
      intercalate_pair]
    cases s.clearOnFlush <;> rfl
  · simp [State.flush, h]
    cases s.clearOnFlush <;> rfl
  · cases h : s.current with
    | none => simp [State.flush, h, hc, State.clear]
    | some lab => simp [State.flush, h, hc, State.clear]

theorem state_flush_spec_witness :
    ((⟨"connection", true, some "open"⟩ : State).flush 1000).1
      = some ⟨"connection" ++ "_" ++ "open", [⟨t 1000, [1]⟩], none⟩ :=
  ((state_flush_spec ⟨"connection", true, some "open"⟩ 1000).2.1 "open" rfl).1

/-- Claim C10: the Reporter constructor computes
`options.intervalMs || 2 * 60 * 1000`, so an absent interval, `0`, or any
falsy number such as `NaN` yields the two-minute default, and only a
truthy value overrides it. -/
theorem reporter_interval_default_spec :
    Reporter.intervalMsOf (some (JSNum.num 0)) = JSNum.num (2 * 60 * 1000) ∧
    Reporter.intervalMsOf (some JSNum.nan) = JSNum.num (2 * 60 * 1000) ∧
    Reporter.intervalMsOf none = JSNum.num (2 * 60 * 1000) ∧
    (∀ v : JSNum, v.truthy = true → Reporter.intervalMsOf (some v) = v) ∧
    (∀ v : JSNum, v.truthy = false →
      Reporter.intervalMsOf (some v) = JSNum.num (2 * 60 * 1000)) := by
  refine ⟨rfl, rfl, rfl, fun v h => ?_, fun v h => ?_⟩ <;>
    simp [Reporter.intervalMsOf, h]

theorem reporter_interval_default_spec_witness :
    Reporter.intervalMsOf (some (JSNum.num 60000)) = JSNum.num 60000 :=
  reporter_interval_default_spec.2.2.2.1 (JSNum.num 60000) (by decide)

theorem flushGauges_eq (tags : List String) (nowMs : Nat)
    (l : List (String × Gauge)) (acc : List DatadogSeries) :
    flushGauges tags nowMs l acc
      = acc ++ l.map (fun p => tagSeries tags (p.2.flush nowMs).1) := by
  induction l generalizing acc with
  | nil => simp [flushGauges]
  | cons p ps ih => simp [flushGauges, ih]

theorem flushStates_eq (tags : List String) (nowMs : Nat)
    (l : List (String × State)) (acc : List DatadogSeries)
    (accSt : List (String × State)) :
    flushStates tags nowMs l acc accSt
      = (acc ++ l.filterMap (fun p => ((p.2.flush nowMs).1).map (tagSeries tags)),
         accSt ++ l.map (fun p => (p.1, (p.2.flush nowMs).2))) := by
  induction l generalizing acc accSt with
  | nil => simp [flushStates]
  | cons p ps ih =>
    simp only [flushStates, ih]
    cases h : (p.2.flush nowMs).1 <;> simp [h]

theorem metrics_flush_eq (m : Metrics) (nowMs : Nat) :
    m.flush nowMs
      = (m.gauges.map (fun p => tagSeries m.tags (p.2.flush nowMs).1)
          ++ m.states.filterMap (fun p => ((p.2.flush nowMs).1).map (tagSeries m.tags)),
         { m with states := m.states.map (fun p => (p.1, (p.2.flush nowMs).2)) }) := by
  simp [Metrics.flush, flushGauges_eq, flushStates_eq]

/-- Claim C1 counterexample: the claim says every empty flush result is
skipped so the output contains only non-empty results; but the gauge loop
pushes every gauge's series unconditionally, so a registry holding one
never-set gauge flushes to an output containing a series with an empty
point list. -/
theorem metrics_flush_only_nonempty_cex :
    (Metrics.flush ⟨[("g", ⟨"g", none⟩)], [], []⟩ 0).1 = [⟨"g", [], none⟩] ∧
    ¬ (∀ s ∈ (Metrics.flush ⟨[("g", ⟨"g", none⟩)], [], []⟩ 0).1, s.points ≠ []) := by
  refine ⟨by decide, by decide⟩

/-- Claim C1 (amended): `Metrics.flush` returns all owned gauges' flush
results in creation order — each appended unconditionally, even when its
point list is empty — followed by exactly the defined (`some`) flush
results of the owned states in creation order, with undefined state
results skipped; each appended series is tagged when the registry's tag
list is non-empty. -/
theorem metrics_flush_order_spec (m : Metrics) (nowMs : Nat) :
    (m.flush nowMs).1
      = m.gauges.map (fun p => tagSeries m.tags (p.2.flush nowMs).1)
        ++ m.states.filterMap (fun p => ((p.2.flush nowMs).1).map (tagSeries m.tags)) := by
  rw [metrics_flush_eq]

theorem lookupName_mem {α : Type} {k : String} {v : α} :
    ∀ {l : List (String × α)}, lookupName k l = some v → (k, v) ∈ l := by
  intro l
  induction l with
  | nil => intro h; simp [lookupName] at h
  | cons p ps ih =>
    intro h
    by_cases hp : p.1 = k
    · simp [lookupName, hp] at h
      subst hp h
      exact List.mem_cons_self _ _
    · simp [lookupName, hp] at h
      exact List.mem_cons_of_mem _ (ih h)

theorem lookupName_append {α : Type} (k : String) (l l' : List (String × α)) :
    lookupName k (l ++ l')
      = match lookupName k l with
        | some v => some v
        | none => lookupName k l' := by
  induction l with
  | nil => simp [lookupName]
  | cons p ps ih =>
    by_cases hp : p.1 = k <;> simp [lookupName, hp, ih]

theorem Metrics.gauge_name {m : Metrics} (h : m.WF) (n : String) :
    ((m.gauge n).1).name = n := by
  unfold Metrics.gauge
  cases hl : lookupName n m.gauges with
  | none => simp [Gauge.new]
  | some g => simpa using h.1 (n, g) (lookupName_mem hl)

theorem Metrics.state_pfx {m : Metrics} (h : m.WF) (n : String) (b : Bool) :
    ((m.state n b).1).pfx = n := by
  unfold Metrics.state
  cases hl : lookupName n m.states with
  | none => simp [State.new]
  | some s => simpa using h.2 (n, s) (lookupName_mem hl)

theorem Metrics.gauge_WF {m : Metrics} (h : m.WF) (n : String) :
    ((m.gauge n).2).WF := by
  unfold Metrics.gauge
  cases hl : lookupName n m.gauges with
  | some g => simpa using h
  | none =>
    refine ⟨fun p hp => ?_, fun p hp => h.2 p hp⟩
    rcases List.mem_append.1 hp with hp | hp
    · exact h.1 p hp
    · simp at hp
      subst hp
      rfl

theorem Metrics.state_WF {m : Metrics} (h : m.WF) (n : String) (b : Bool) :
    ((m.state n b).2).WF := by
  unfold Metrics.state
  cases hl : lookupName n m.states with
  | some s => simpa using h
  | none =>
    refine ⟨fun p hp => h.1 p hp, fun p hp => ?_⟩
    rcases List.mem_append.1 hp with hp | hp
    · exact h.2 p hp
    · simp at hp
      subst hp
      rfl

theorem Metrics.gauge_idem (m : Metrics) (n : String) :
    ((m.gauge n).2).gauge n = ((m.gauge n).1, (m.gauge n).2) := by
  unfold Metrics.gauge
  cases hl : lookupName n m.gauges with
  | some g => simp [hl]
  | none => simp [hl, lookupName_append, lookupName]

theorem Metrics.state_idem (m : Metrics) (n : String) (b b' : Bool) :
    ((m.state n b).2).state n b' = ((m.state n b).1, (m.state n b).2) := by
  unfold Metrics.state
  cases hl : lookupName n m.states with
  | some s => simp [hl]
  | none => simp [hl, lookupName_append, lookupName]

/-- Claim C7: `gauge` and `state` are identity-preserving get-or-create
accessors: a repeated call with the same name returns the stored instance
and leaves the registry untouched (so the caller observes the identical
object); for a well-formed registry, distinct names yield distinct
instances; the gauge and state namespaces are independent (each accessor
leaves the other map unchanged); and `clearOnFlush` is honored exactly at
first creation, a later call with a different flag returning the original
instance unchanged. -/
theorem metrics_get_or_create_spec (m : Metrics) (n n₁ n₂ : String) (b b' : Bool) :
    (((m.gauge n).2).gauge n = ((m.gauge n).1, (m.gauge n).2)) ∧
    (((m.state n b).2).state n b' = ((m.state n b).1, (m.state n b).2)) ∧
    (m.WF → n₁ ≠ n₂ → (m.gauge n₁).1 ≠ (((m.gauge n₁).2).gauge n₂).1) ∧
    (m.WF → n₁ ≠ n₂ → (m.state n₁ b).1 ≠ (((m.state n₁ b).2).state n₂ b').1) ∧
    (((m.gauge n).2).states = m.states) ∧
    (((m.state n b).2).gauges = m.gauges) ∧
    (lookupName n m.states = none → (m.state n b).1.clearOnFlush = b) := by
  refine ⟨Metrics.gauge_idem m n, Metrics.state_idem m n b b', ?_, ?_, ?_, ?_, ?_⟩
  · intro hwf hne heq
    have h₁ : (m.gauge n₁).1.name = n₁ := Metrics.gauge_name hwf n₁
    have h₂ : ((((m.gauge n₁).2)).gauge n₂).1.name = n₂ :=
      Metrics.gauge_name (Metrics.gauge_WF hwf n₁) n₂
    exact hne (h₁ ▸ h₂ ▸ congrArg Gauge.name heq)
  · intro hwf hne heq
    have h₁ : (m.state n₁ b).1.pfx = n₁ := Metrics.state_pfx hwf n₁ b
    have h₂ : ((((m.state n₁ b).2)).state n₂ b').1.pfx = n₂ :=
      Metrics.state_pfx (Metrics.state_WF hwf n₁ b) n₂ b'
    exact hne (h₁ ▸ h₂ ▸ congrArg State.pfx heq)
  · unfold Metrics.gauge
    cases hl : lookupName n m.gauges <;> simp
  · unfold Metrics.state
    cases hl : lookupName n m.states <;> simp
  · intro hl
    unfold Metrics.state
    simp [hl, State.new]

theorem metrics_get_or_create_spec_witness :
    ((Metrics.new []).gauge "a").1 ≠ ((((Metrics.new []).gauge "a").2).gauge "b").1 :=
  (metrics_get_or_create_spec (Metrics.new []) "x" "a" "b" true false).2.2.1
    (by decide) (by decide)

theorem reportOnce_eq (fetch : Fetch) (r : ReporterState) (nowMs : Nat) :
    Reporter.reportOnce fetch r nowMs
      = Except.ok ({ r with metrics := (r.metrics.flush nowMs).2 },
          if (r.metrics.flush nowMs).1.length = 0 then
            [⟨LogLevel.debug, "No metrics to report"⟩]
          else match report fetch r.url r.headers (r.metrics.flush nowMs).1 with
            | Except.ok _ => []
            | Except.error e =>
              [⟨LogLevel.error, "Error reporting metrics: " ++ e⟩]) := by
  unfold Reporter.reportOnce
  by_cases h : (r.metrics.flush nowMs).1.length = 0
  · simp [h]
  · cases hr : report fetch r.url r.headers (r.metrics.flush nowMs).1 <;> simp [h, hr]

theorem runTicks_ok (fetch : Fetch) :
    ∀ (ticks : List Nat) (r : ReporterState),
      ∃ out, Reporter.runTicks fetch r ticks = Except.ok out := by
  intro ticks
  induction ticks with
  | nil => exact fun r => ⟨(r, []), rfl⟩
  | cons nowMs rest ih =>
    intro r
    obtain ⟨out', hout'⟩ :=
      ih ({ r with metrics := (r.metrics.flush nowMs).2 })
    refine ⟨(out'.1,
      (if (r.metrics.flush nowMs).1.length = 0 then
        [⟨LogLevel.debug, "No metrics to report"⟩]
      else match report fetch r.url r.headers (r.metrics.flush nowMs).1 with
        | Except.ok _ => []
        | Except.error e =>
          [⟨LogLevel.error, "Error reporting metrics: " ++ e⟩]) ++ out'.2), ?_⟩
    simp only [Reporter.runTicks, reportOnce_eq, hout']

/-- Claim C3: `Reporter.report()` never throws and never yields a rejected
result: every invocation returns `Except.ok`; a transport failure (thrown
error or the non-success error raised inside `report`) is caught locally
and surfaces only as an error-level log entry; the interval id is left
untouched by the call; and a whole run of timer ticks therefore completes
without any tick aborting the schedule. -/
theorem reporter_report_isolation_spec (fetch : Fetch) (r : ReporterState) (nowMs : Nat) :
    (∃ out, Reporter.reportOnce fetch r nowMs = Except.ok out) ∧
    (∀ out, Reporter.reportOnce fetch r nowMs = Except.ok out →
      out.1.intervalID = r.intervalID) ∧
    (∀ e : String, (r.metrics.flush nowMs).1.length ≠ 0 →
      report fetch r.url r.headers (r.metrics.flush nowMs).1 = Except.error e →
      Reporter.reportOnce fetch r nowMs
        = Except.ok ({ r with metrics := (r.metrics.flush nowMs).2 },
            [⟨LogLevel.error, "Error reporting metrics: " ++ e⟩])) ∧
    (∀ ticks : List Nat, ∃ out, Reporter.runTicks fetch r ticks = Except.ok out) := by
  refine ⟨⟨_, reportOnce_eq fetch r nowMs⟩, ?_, ?_, fun ticks => runTicks_ok fetch ticks r⟩
  · intro out hout
    rw [reportOnce_eq] at hout
    cases hout
    rfl
  · intro e hlen hrep
    rw [reportOnce_eq, if_neg hlen, hrep]

theorem reporter_report_isolation_spec_witness :
    Reporter.reportOnce (fun _ => Except.error "boom")
        ⟨⟨[("g", ⟨"g", some 3⟩)], [], []⟩, "u", [], 5⟩ 0
      = Except.ok ({ (⟨⟨[("g", ⟨"g", some 3⟩)], [], []⟩, "u", [], 5⟩ : ReporterState) with
            metrics := (((⟨⟨[("g", ⟨"g", some 3⟩)], [], []⟩, "u", [], 5⟩ :
              ReporterState)).metrics.flush 0).2 },
          [⟨LogLevel.error, "Error reporting metrics: " ++ "boom"⟩]) :=
  (reporter_report_isolation_spec (fun _ => Except.error "boom")
    ⟨⟨[("g", ⟨"g", some 3⟩)], [], []⟩, "u", [], 5⟩ 0).2.2.1 "boom" (by decide) rfl

theorem metrics_flush_nil {m : Metrics} (h1 : m.gauges = []) (h2 : m.states = [])
    (nowMs : Nat) : m.flush nowMs = ([], m) := by
  obtain ⟨g, s, tg⟩ := m
  simp only at h1 h2
  subst h1 h2
  simp [metrics_flush_eq]

/-- Claim C9: when a flush yields the empty sequence, `Reporter.report()`
logs the debug "nothing to report" message and makes no transport call
(its result does not depend on the transport at all); in particular a
Reporter over an empty registry produces one debug entry per tick and
never invokes the transport, however many ticks elapse. -/
theorem reporter_skip_empty_spec (f₁ f₂ : Fetch) (r : ReporterState) (nowMs : Nat)
    (ticks : List Nat) :
    ((r.metrics.flush nowMs).1 = [] →
      Reporter.reportOnce f₁ r nowMs
        = Except.ok ({ r with metrics := (r.metrics.flush nowMs).2 },
            [⟨LogLevel.debug, "No metrics to report"⟩]) ∧
      Reporter.reportOnce f₁ r nowMs = Reporter.reportOnce f₂ r nowMs) ∧
    (r.metrics.gauges = [] → r.metrics.states = [] →
      Reporter.runTicks f₁ r ticks
        = Except.ok (r, List.replicate ticks.length
            ⟨LogLevel.debug, "No metrics to report"⟩) ∧
      Reporter.runTicks f₁ r ticks = Reporter.runTicks f₂ r ticks) := by
  constructor
  · intro hempty
    have hlen : (r.metrics.flush nowMs).1.length = 0 := by rw [hempty]; rfl
    constructor
    · rw [reportOnce_eq, if_pos hlen]
    · simp only [reportOnce_eq, if_pos hlen]
  · intro h1 h2
    have hstep : ∀ (f : Fetch) (n : Nat), Reporter.reportOnce f r n
        = Except.ok (r, [⟨LogLevel.debug, "No metrics to report"⟩]) := by
      intro f n
      rw [reportOnce_eq, metrics_flush_nil h1 h2]
      rfl
    have hrun : ∀ (f : Fetch), Reporter.runTicks f r ticks
        = Except.ok (r, List.replicate ticks.length
            ⟨LogLevel.debug, "No metrics to report"⟩) := by
      intro f
      induction ticks with
      | nil => rfl
      | cons nowMs' rest ih =>
        simp [Reporter.runTicks, hstep, ih, List.replicate_succ]
    exact ⟨hrun f₁, (hrun f₁).trans (hrun f₂).symm⟩

theorem setHeader_not_mem (hs : Headers) (k v : String)
    (h : lookupName k hs = none) : setHeader hs k v = hs ++ [(k, v)] := by
  simp [setHeader, h]

theorem lookupName_singleton_ne {k k' v : String} (h : k' ≠ k) :
    lookupName k [(k', v)] = none := by
  simp [lookupName, h]

theorem foldl_setHeader_disjoint :
    ∀ (extra : Headers) (hs : Headers), (extra.map Prod.fst).Nodup →
      (∀ p ∈ extra, lookupName p.1 hs = none) →
      List.foldl (fun hs p => setHeader hs p.1 p.2) hs extra = hs ++ extra := by
  intro extra
  induction extra with
  | nil => intro hs _ _; simp
  | cons p ps ih =>
    intro hs hnd hdisj
    rw [List.map_cons] at hnd
    have hnd2 := List.nodup_cons.1 hnd
    have hhead : lookupName p.1 hs = none := hdisj p (List.mem_cons_self _ _)
    have hdisj' : ∀ q ∈ ps, lookupName q.1 (hs ++ [(p.1, p.2)]) = none := by
      intro q hq
      rw [lookupName_append]
      rw [hdisj q (List.mem_cons_of_mem _ hq)]
      have hne : p.1 ≠ q.1 := fun hpq =>
        hnd2.1 (hpq ▸ List.mem_map_of_mem Prod.fst hq)
      exact lookupName_singleton_ne hne
    have hnd' : (ps.map Prod.fst).Nodup := hnd2.2
    calc List.foldl (fun hs p => setHeader hs p.1 p.2) hs (p :: ps)
        = List.foldl (fun hs p => setHeader hs p.1 p.2) (hs ++ [(p.1, p.2)]) ps := by
          rw [List.foldl_cons, setHeader_not_mem hs p.1 p.2 hhead]
      _ = (hs ++ [(p.1, p.2)]) ++ ps := ih (hs ++ [(p.1, p.2)]) hnd' hdisj'
      _ = hs ++ (p :: ps) := by simp

theorem lookupName_map_overwrite_isSome (k k' v : String) :
    ∀ hs : Headers, (lookupName k hs).isSome = true →
      (lookupName k (hs.map fun p => if p.1 = k' then (k', v) else p)).isSome = true := by
  intro hs
  induction hs with
  | nil => intro h; simp [lookupName] at h
  | cons q qs ih =>
    intro h
    by_cases hq : q.1 = k
    · by_cases hq' : q.1 = k'
      · have hkk : k' = k := hq'.symm.trans hq
        simp [lookupName, hq', hkk]
      · have hkk : ¬ k = k' := fun hh => hq' (hq.trans hh)
        simp [lookupName, hq, hq', hkk]
    · have h' : (lookupName k qs).isSome = true := by
        simpa [lookupName, hq] using h
      by_cases hq' : q.1 = k'
      · by_cases hkk : k' = k
        · simp [lookupName, hq', hkk]
        · simp only [List.map_cons, if_pos hq']
          simp only [lookupName, hkk, if_neg]
          exact ih h'
      · simp only [List.map_cons, if_neg hq']
        simp only [lookupName, hq, if_neg]
        exact ih h'

theorem lookupName_isSome_of_mem {α : Type} {p : String × α} {l : List (String × α)}
    (hp : p ∈ l) : (lookupName p.1 l).isSome = true := by
  induction l with
  | nil => cases hp
  | cons q qs ih =>
    cases List.mem_cons.1 hp with
    | inl h => subst h; simp [lookupName]
    | inr h =>
      by_cases hq : q.1 = p.1
      · simp [lookupName, hq]
      · simp only [lookupName, hq, if_neg]
        exact ih h

theorem lookupName_setHeader_isSome (hs : Headers) (k k' v : String)
    (h : (lookupName k hs).isSome = true) :
    (lookupName k (setHeader hs k' v)).isSome = true := by
  unfold setHeader
  by_cases hp : (lookupName k' hs).isSome = true
  · rw [if_pos hp]
    exact lookupName_map_overwrite_isSome k k' v hs h
  · rw [if_neg hp]
    rw [lookupName_append]
    obtain ⟨w, hw⟩ := Option.isSome_iff_exists.1 h
    simp [hw]

theorem mkHeaders_ct_isSome (extra : Headers) :
    (lookupName "Content-Type" (mkHeaders extra)).isSome = true := by
  unfold mkHeaders
  have : ∀ (l : Headers) (hs : Headers),
      (lookupName "Content-Type" hs).isSome = true →
      (lookupName "Content-Type"
        (List.foldl (fun hs p => setHeader hs p.1 p.2) hs l)).isSome = true := by
    intro l
    induction l with
    | nil => intro hs h; simpa using h
    | cons p ps ih =>
      intro hs h
      exact ih _ (lookupName_setHeader_isSome hs _ p.1 p.2 h)
  exact this extra [("Content-Type", "application/json")] (by simp [lookupName])

/-- Claim C8: `report(url, extraHeaders, allSeries)` POSTs the JSON
serialization of the series under the single key `series`
(`JSON.stringify({series: allSeries})`) with the `Content-Type:
application/json` header first and the caller's extra headers applied
after it (so with no colliding key the headers are exactly the
content-type binding followed by the extras, and a content-type binding is
always present); it fails with an error embedding the status code, status
text and body text exactly when the response is not `ok`, it propagates a
thrown transport error, and on success it returns the raw response. -/
theorem report_wire_spec (fetch : Fetch) (url : String) (extra : Headers)
    (allSeries : List DatadogSeries) (res : Response) (e : String) :
    ((reportRequest url extra allSeries).body = stringifySeriesBody allSeries) ∧
    ((reportRequest url extra allSeries).method = "POST") ∧
    ((reportRequest url extra allSeries).url = url) ∧
    ((reportRequest url extra allSeries).headers = mkHeaders extra) ∧
    ((extra.map Prod.fst).Nodup → lookupName "Content-Type" extra = none →
      mkHeaders extra = ("Content-Type", "application/json") :: extra) ∧
    ((lookupName "Content-Type" (mkHeaders extra)).isSome = true) ∧
    (fetch (reportRequest url extra allSeries) = Except.ok res → res.ok = true →
      report fetch url extra allSeries = Except.ok res) ∧
    (fetch (reportRequest url extra allSeries) = Except.ok res → res.ok = false →
      report fetch url extra allSeries = Except.error
        ("unexpected response: " ++ toString res.status ++ " " ++ res.statusText
          ++ " body: " ++ res.bodyText)) ∧
    (fetch (reportRequest url extra allSeries) = Except.error e →
      report fetch url extra allSeries = Except.error e) := by
  refine ⟨rfl, rfl, rfl, rfl, ?_, mkHeaders_ct_isSome extra, ?_, ?_, ?_⟩
  · intro hnd hct
    unfold mkHeaders
    have := foldl_setHeader_disjoint extra [("Content-Type", "application/json")] hnd ?_
    · simpa using this
    · intro p hp
      by_cases hpk : p.1 = "Content-Type"
      · exfalso
        have hsome := lookupName_isSome_of_mem hp
        rw [hpk, hct] at hsome
        simp at hsome
      · exact lookupName_singleton_ne (fun h => hpk h.symm)
  · intro hf hok
    unfold report
    rw [hf]
    simp [hok]
  · intro hf hok
    unfold report
    rw [hf]
    simp [hok]
  · intro hf
    unfold report
    rw [hf]

theorem report_wire_spec_witness :
    report
      (fun _ => Except.ok ⟨false, 403, "Forbidden", "denied"⟩)
      "https://example.test" [("DD-API-KEY", "k")]
      [⟨"m", [⟨42, [3]⟩], some ["t"]⟩]
      = Except.error ("unexpected response: "
          ++ toString (403 : Nat) ++ " " ++ "Forbidden" ++ " body: " ++ "denied") :=
  (report_wire_spec (fun _ => Except.ok ⟨false, 403, "Forbidden", "denied"⟩)
    "https://example.test" [("DD-API-KEY", "k")]
    [⟨"m", [⟨42, [3]⟩], some ["t"]⟩] ⟨false, 403, "Forbidden", "denied"⟩
    "unused").2.2.2.2.2.2.2.1 rfl rfl

theorem reporter_skip_empty_spec_witness :
    Reporter.runTicks (fun _ => Except.error "down")
        ⟨Metrics.new [], "u", [], 7⟩ [1000, 2000, 3000]
      = Except.ok (⟨Metrics.new [], "u", [], 7⟩,
          List.replicate 3 ⟨LogLevel.debug, "No metrics to report"⟩) :=
  ((reporter_skip_empty_spec (fun _ => Except.error "down")
      (fun _ => Except.ok ⟨true, 200, "OK", ""⟩)
      ⟨Metrics.new [], "u", [], 7⟩ 0 [1000, 2000, 3000]).2 rfl rfl).1

theorem Gauge.flushH_eq (g : Gauge) (nowMs : Nat) (w : World) :
    g.flushH nowMs w = (⟨g.name, w.pointArrs.length, none⟩,
      { w with pointArrs := w.pointArrs ++ [((g.flush nowMs).1).points] }) := by
  cases hv : g.value <;> simp [Gauge.flushH, Gauge.flush, World.allocPoints, hv]

theorem World.readPoints_last (w : World) (pts : List DatadogPoint) :
    ({ w with pointArrs := w.pointArrs ++ [pts] } : World).readPoints
      w.pointArrs.length = pts := by
  simp [World.readPoints]

theorem State.flushH_tagArrs (s : State) (nowMs : Nat) (w : World) :
    (s.flushH nowMs w).2.2.tagArrs = w.tagArrs := by
  cases hc : s.current <;> cases hb : s.clearOnFlush <;>
    simp [State.flushH, hc, hb, Gauge.flushH_eq]

theorem State.flushH_tags (s : State) (nowMs : Nat) (w : World) (sr : SeriesRef) :
    (s.flushH nowMs w).1 = some sr → sr.tags = none := by
  cases hc : s.current <;> cases hb : s.clearOnFlush <;>
    simp [State.flushH, hc, hb, Gauge.flushH_eq] <;>
    (intro h; rw [h.symm])

theorem flushGaugesH_tagArrs (tr nowMs : Nat) :
    ∀ (l : List (String × Gauge)) (acc : List SeriesRef) (w : World),
      (flushGaugesH tr nowMs l acc w).2.tagArrs = w.tagArrs := by
  intro l
  induction l with
  | nil => intro acc w; rfl
  | cons p ps ih =>
    intro acc w
    simp only [flushGaugesH]
    rw [ih]
    simp [Gauge.flushH_eq]

theorem flushStatesH_tagArrs (tr nowMs : Nat) :
    ∀ (l : List (String × State)) (acc : List SeriesRef)
      (accSt : List (String × State)) (w : World),
      (flushStatesH tr nowMs l acc accSt w).2.2.tagArrs = w.tagArrs := by
  intro l
  induction l with
  | nil => intro acc accSt w; rfl
  | cons p ps ih =>
    intro acc accSt w
    simp only [flushStatesH]
    rw [ih]
    exact State.flushH_tagArrs p.2 nowMs w

theorem flushGaugesH_tags_pos (tr nowMs : Nat) :
    ∀ (l : List (String × Gauge)) (acc : List SeriesRef) (w : World),
      (w.readTags tr).length > 0 →
      (∀ s ∈ acc, s.tags = some tr) →
      ∀ s ∈ (flushGaugesH tr nowMs l acc w).1, s.tags = some tr := by
  intro l
  induction l with
  | nil =>
    intro acc w _ hacc s hs
    exact hacc s hs
  | cons p ps ih =>
    intro acc w hw hacc s hs
    simp only [flushGaugesH, Gauge.flushH_eq] at hs
    rw [if_pos hw] at hs
    refine ih _ _ ?_ ?_ s hs
    · simpa [World.readTags] using hw
    · intro s' hs'
      rcases List.mem_append.1 hs' with h | h
      · exact hacc s' h
      · simp at h
        subst h
        rfl

theorem flushGaugesH_tags_any (tr nowMs : Nat) :
    ∀ (l : List (String × Gauge)) (acc : List SeriesRef) (w : World),
      (∀ s ∈ acc, s.tags = none ∨ s.tags = some tr) →
      ∀ s ∈ (flushGaugesH tr nowMs l acc w).1, s.tags = none ∨ s.tags = some tr := by
  intro l
  induction l with
  | nil =>
    intro acc w hacc s hs
    exact hacc s hs
  | cons p ps ih =>
    intro acc w hacc s hs
    simp only [flushGaugesH, Gauge.flushH_eq] at hs
    refine ih _ _ ?_ s hs
    intro s' hs'
    rcases List.mem_append.1 hs' with h | h
    · exact hacc s' h
    · simp at h
      subst h
      by_cases hg : (w.readTags tr).length > 0 <;> simp [hg]

theorem flushStatesH_tags_pos (tr nowMs : Nat) :
    ∀ (l : List (String × State)) (acc : List SeriesRef)
      (accSt : List (String × State)) (w : World),
      (w.readTags tr).length > 0 →
      (∀ s ∈ acc, s.tags = some tr) →
      ∀ s ∈ (flushStatesH tr nowMs l acc accSt w).1, s.tags = some tr := by
  intro l
  induction l with
  | nil =>
    intro acc accSt w _ hacc s hs
    exact hacc s hs
  | cons p ps ih =>
    intro acc accSt w hw hacc s hs
    simp only [flushStatesH] at hs
    refine ih _ _ _ ?_ ?_ s hs
    · have := State.flushH_tagArrs p.2 nowMs w
      simpa [World.readTags, this] using hw
    · intro s' hs'
      cases hr : (p.2.flushH nowMs w).1 with
      | none =>
        rw [hr] at hs'
        exact hacc s' hs'
      | some sr =>
        rw [hr] at hs'
        rcases List.mem_append.1 hs' with h | h
        · exact hacc s' h
        · rw [if_pos hw] at h
          simp at h
          subst h
          rfl

theorem flushStatesH_tags_any (tr nowMs : Nat) :
    ∀ (l : List (String × State)) (acc : List SeriesRef)
      (accSt : List (String × State)) (w : World),
      (∀ s ∈ acc, s.tags = none ∨ s.tags = some tr) →
      ∀ s ∈ (flushStatesH tr nowMs l acc accSt w).1,
        s.tags = none ∨ s.tags = some tr := by
  intro l
  induction l with
  | nil =>
    intro acc accSt w hacc s hs
    exact hacc s hs
  | cons p ps ih =>
    intro acc accSt w hacc s hs
    simp only [flushStatesH] at hs
    refine ih _ _ _ ?_ s hs
    intro s' hs'
    cases hr : (p.2.flushH nowMs w).1 with
    | none =>
      rw [hr] at hs'
      exact hacc s' hs'
    | some sr =>
      rw [hr] at hs'
      rcases List.mem_append.1 hs' with h | h
      · exact hacc s' h
      · have hsr : sr.tags = none := State.flushH_tags p.2 nowMs w sr hr
        by_cases hg : (w.readTags tr).length > 0 <;> simp [hg] at h <;> subst h
        · simp
        · simp [hsr]

/-- Claim C2 counterexample: the claim says the tag list attached by
`Metrics.flush` is a copy of the registry's tag list, so mutating the
returned tags does not alter the registry's tags; but the source executes
`series.tags = this._tags`, storing the registry's own array.  Concretely:
a registry whose tags array lives at heap address `0` with contents
`["t1"]` flushes one set gauge to a series whose `tags` field is that same
address `0`; overwriting the array through the returned reference makes
the registry's own tags read back `["evil"]`, not `["t1"]`. -/
theorem metrics_flush_tags_copy_cex :
    ((MetricsH.flush ⟨[("g", ⟨"g", some 3⟩)], [], 0⟩ 0 ⟨[], [["t1"]]⟩).1
        = [⟨"g", 0, some 0⟩]) ∧
    (World.readTags (MetricsH.flush ⟨[("g", ⟨"g", some 3⟩)], [], 0⟩ 0
        ⟨[], [["t1"]]⟩).2.2 0 = ["t1"]) ∧
    (World.readTags (World.writeTags (MetricsH.flush ⟨[("g", ⟨"g", some 3⟩)], [], 0⟩ 0
        ⟨[], [["t1"]]⟩).2.2 0 ["evil"]) 0 = ["evil"]) ∧
    (["evil"] ≠ ["t1"]) := by
  refine ⟨by decide, by decide, by decide, by decide⟩

/-- Claim C2 (amended): the point array of a series returned by
`Gauge.flush` is freshly allocated on every call, so mutating the array
returned by one flush does not change the points of any subsequent flush
on that gauge (the points read back through the later series equal the
pure flush result); but the tag list `Metrics.flush` attaches to a series
when the registry's tag list is non-empty is the registry's own tags
array — the identical reference `tagsRef`, not a copy — and flushing never
writes any tags array, so mutating the returned tags is mutating the
registry's tags. -/
theorem flush_alias_spec :
    (∀ (g : Gauge) (now₁ now₂ : Nat) (w : World) (newpts : List DatadogPoint),
      ((g.flushH now₂ ((g.flushH now₁ w).2.writePoints
          (g.flushH now₁ w).1.points newpts)).1.points
        ≠ (g.flushH now₁ w).1.points) ∧
      ((g.flushH now₂ ((g.flushH now₁ w).2.writePoints
          (g.flushH now₁ w).1.points newpts)).2.readPoints
          (g.flushH now₂ ((g.flushH now₁ w).2.writePoints
            (g.flushH now₁ w).1.points newpts)).1.points
        = ((g.flush now₂).1).points)) ∧
    (∀ (m : MetricsH) (nowMs : Nat) (w : World),
      ((w.readTags m.tagsRef).length > 0 →
        ∀ s ∈ (m.flush nowMs w).1, s.tags = some m.tagsRef) ∧
      (∀ s ∈ (m.flush nowMs w).1, s.tags = none ∨ s.tags = some m.tagsRef) ∧
      ((m.flush nowMs w).2.2.tagArrs = w.tagArrs)) := by
  constructor
  · intro g now₁ now₂ w newpts
    constructor
    · simp only [Gauge.flushH_eq, World.writePoints]
      simp
    · simp only [Gauge.flushH_eq]
      exact World.readPoints_last _ _
  · intro m nowMs w
    refine ⟨?_, ?_, ?_⟩
    · intro hw s hs
      simp only [MetricsH.flush] at hs
      refine flushStatesH_tags_pos m.tagsRef nowMs m.states _ _ _ ?_ ?_ s hs
      · have := flushGaugesH_tagArrs m.tagsRef nowMs m.gauges [] w
        simpa [World.readTags, this] using hw
      · exact flushGaugesH_tags_pos m.tagsRef nowMs m.gauges [] w hw
          (by intro s' hs'; cases hs')
    · intro s hs
      simp only [MetricsH.flush] at hs
      refine flushStatesH_tags_any m.tagsRef nowMs m.states _ _ _ ?_ s hs
      exact flushGaugesH_tags_any m.tagsRef nowMs m.gauges [] w
        (by intro s' hs'; cases hs')
    · simp only [MetricsH.flush]
      rw [flushStatesH_tagArrs, flushGaugesH_tagArrs]

theorem flush_alias_spec_witness :
    (⟨"g", 0, some 0⟩ : SeriesRef)
        ∈ (MetricsH.flush ⟨[("g", ⟨"g", some 3⟩)], [], 0⟩ 5000 ⟨[], [["t1"]]⟩).1 ∧
      (⟨"g", 0, some 0⟩ : SeriesRef).tags = some 0 :=
  ⟨by decide,
    (flush_alias_spec.2 ⟨[("g", ⟨"g", some 3⟩)], [], 0⟩ 5000 ⟨[], [["t1"]]⟩).1
      (by decide) ⟨"g", 0, some 0⟩ (by decide)⟩

end DatadogUtil
